import Mathlib

/-! Selection support of `haikuselect.c`.

A shallow embedding of the four Lisp primitives of `src/haikuselect.c`
(`haiku-selection-targets`, `haiku-selection-data`, `haiku-selection-put`,
`haiku-selection-owner-p`) over an explicit state, followed by the theorems
about them, C1 to C10.

The state holds one native clipboard store per selection class, the depth of
`block_input`, and a log of the native calls that were made.  The native
clipboard (`BClipboard_*`, declared in `haikuselect.h`) is a parameter of every
definition: the theorems hold for every native service, except where a
hypothesis about it is written out.
-/

namespace HaikuSelect

/-! Lisp objects -/

/-- One byte of a string or of a native buffer. -/
abbrev Byte := Fin 256

/-- Modelled from the spec: the type `Lisp_Object` is declared in lisp.h, which
is not under src/.  This is the part of it that haikuselect.c handles: the
class is a symbol, the target and the data are strings ("an immutable byte
sequence plus its length", tagged).  Symbols are interned, so a symbol is its
name; `nil` and `t` are the symbols of that name.  A string is its bytes, its
multibyte flag and the text properties put on it, each as
`(start, end, property, value)`. -/
inductive Lisp_Object where
  | symbol (name : String)
  | fixnum (n : Int)
  | string (data : List Byte) (multibyte : Bool)
      (intervals : List (Int × Int × Lisp_Object × Lisp_Object))
  | cons (car cdr : Lisp_Object)

/-- The symbol `nil`. -/
def Qnil : Lisp_Object := .symbol "nil"

/-- The symbol `t`. -/
def Qt : Lisp_Object := .symbol "t"

/-- The symbol `PRIMARY`. -/
def QPRIMARY : Lisp_Object := .symbol "PRIMARY"

/-- The symbol `SECONDARY` (`DEFSYM` in `syms_of_haikuselect`). -/
def QSECONDARY : Lisp_Object := .symbol "SECONDARY"

/-- The symbol `CLIPBOARD` (`DEFSYM` in `syms_of_haikuselect`). -/
def QCLIPBOARD : Lisp_Object := .symbol "CLIPBOARD"

/-- The symbol `foreign-selection` (`DEFSYM` in `syms_of_haikuselect`). -/
def Qforeign_selection : Lisp_Object := .symbol "foreign-selection"

/-- The symbol `symbolp`, the predicate `CHECK_SYMBOL` reports. -/
def Qsymbolp : Lisp_Object := .symbol "symbolp"

/-- The symbol `stringp`, the predicate `CHECK_STRING` reports. -/
def Qstringp : Lisp_Object := .symbol "stringp"

/-- Modelled from the spec: the macro `EQ` of lisp.h, which is not under src/,
is identity of objects; the classes of the spec are told apart by it.  Symbols are identical when their
names are, fixnums when their values are.  Two heap objects (strings, conses)
are identical when they are the same allocation, which this embedding does not
track; every use below has a symbol on the right, where the answer for a heap
object is `false`. -/
def EQ : Lisp_Object → Lisp_Object → Bool
  | .symbol a, .symbol b => decide (a = b)
  | .fixnum a, .fixnum b => decide (a = b)
  | _, _ => false

/-- Modelled from the spec: the macro `NILP` of lisp.h (not under src/): the
object is `nil`, the "absent" value of the spec. -/
def NILP (x : Lisp_Object) : Bool := EQ x Qnil

/-- Modelled from the spec: the macro `SYMBOLP` of lisp.h (not under src/): the
object is a symbol. -/
def SYMBOLP : Lisp_Object → Bool
  | .symbol _ => true
  | _ => false

/-- Modelled from the spec: the macro `STRINGP` of lisp.h (not under src/): the
object is a string. -/
def STRINGP : Lisp_Object → Bool
  | .string _ _ _ => true
  | _ => false

/-- Modelled from the spec: the macro `SSDATA` of lisp.h (not under src/): the
bytes the data pointer of the string points to. -/
def SSDATA : Lisp_Object → List Byte
  | .string data _ _ => data
  | _ => []

/-- Modelled from the spec: the macro `SBYTES` of lisp.h (not under src/): the
number of bytes of the string, its "length" in the spec. -/
def SBYTES : Lisp_Object → Nat
  | .string data _ _ => data.length
  | _ => 0

/-- Modelled from the spec: the macro `make_fixnum` of lisp.h (not under
src/): the integer as a Lisp object. -/
def make_fixnum (n : Int) : Lisp_Object := .fixnum n

/-- Modelled from the spec: `Fcons` (alloc.c, not under src/) puts an element
in front of a list; the "ordered sequence" of the spec is built with it. -/
def Fcons (car cdr : Lisp_Object) : Lisp_Object := .cons car cdr

/-- Modelled from the spec: `make_unibyte_string` (alloc.c, not under src/)
copies the first `len` bytes at `dat` into a new unibyte string with no text
property: the "owned, immutable payload" of the spec, whose "length is
authoritative".  The buffer at `dat` is taken to hold at least `len` bytes. -/
def make_unibyte_string (dat : List Byte) (len : Nat) : Lisp_Object :=
  .string (dat.take len) false []

/-- The bytes of a C string: those before the first zero byte. -/
def c_string (mem : List Byte) : List Byte := mem.takeWhile (fun b => b != 0)

/-- Modelled from the spec: `build_unibyte_string` (lisp.h, not under src/)
makes a unibyte string of a "null-terminated byte string", the form in which
the native enumeration hands out a target. -/
def build_unibyte_string (str : List Byte) : Lisp_Object :=
  make_unibyte_string (c_string str) (c_string str).length

/-- Modelled from the spec: `Fput_text_property` (textprop.c) is not part of
haikuselect.c.  The spec says the payload is "tagged foreign" and carries that
tag with it; the model records on the string that `property` has `value` on the
text from `start` to `stop`.  In C the string is changed in place; here the
changed string is returned.  A range with `start = stop` covers no position. -/
def Fput_text_property (start stop property value object : Lisp_Object) : Lisp_Object :=
  match start, stop, object with
  | .fixnum b, .fixnum e, .string data multibyte intervals =>
      .string data multibyte (intervals ++ [(b, e, property, value)])
  | _, _, _ => object

/-- The intervals of a string (none on any other object). -/
def string_intervals : Lisp_Object → List (Int × Int × Lisp_Object × Lisp_Object)
  | .string _ _ intervals => intervals
  | _ => []

/-- Modelled from the spec: the value of `property` at `position` of a string:
that of the most recent put whose range holds the position, `nil` when there is
none (`Fget_text_property` of textprop.c, not part of haikuselect.c). -/
def Fget_text_property (position : Int) (property object : Lisp_Object) : Lisp_Object :=
  match (string_intervals object).reverse.find?
      (fun iv => decide (iv.1 ≤ position) && decide (position < iv.2.1) && EQ iv.2.2.1 property) with
  | some iv => iv.2.2.2
  | none => Qnil

/-- A proper Lisp list of the given elements. -/
def lisp_list : List Lisp_Object → Lisp_Object
  | [] => Qnil
  | x :: xs => Fcons x (lisp_list xs)

/-! Errors and outcomes -/

/-- Modelled from the spec: the conditions the four primitives signal
(lisp.h and eval.c, not under src/): the `InvalidSelectionClass` failure of the
spec is `error` with the message "Bad clipboard"; the type checks signal
`wrong_type_argument`. -/
inductive LispError where
  /-- Signalled by `CHECK_SYMBOL` and `CHECK_STRING`. -/
  | wrong_type_argument (predicate value : Lisp_Object)
  /-- Signalled by `signal_error (message, data)`. -/
  | error (message : String) (data : Lisp_Object)

/-- How a primitive ends: it returns a value, it leaves through a signal, or
the C code has read a slot outside an array (undefined behaviour). -/
inductive Outcome where
  | value (v : Lisp_Object)
  | signal (e : LispError)
  | undefined

/-- Modelled from the spec: `signal_error` (eval.c, not under src/) does not
return; it leaves the primitive with an error that carries the message and
the offending value. -/
def signal_error (message : String) (data : Lisp_Object) : LispError := .error message data

/-- Modelled from the spec: the macro `CHECK_SYMBOL` of lisp.h (not under
src/): unless the object is a symbol it leaves the primitive with
`wrong-type-argument`, carrying `symbolp` and the object; `none` is "no
signal". -/
def CHECK_SYMBOL (x : Lisp_Object) : Option LispError :=
  if SYMBOLP x then none else some (.wrong_type_argument Qsymbolp x)

/-- Modelled from the spec: the macro `CHECK_STRING` of lisp.h (not under
src/): unless the object is a string it leaves the primitive with
`wrong-type-argument`, carrying `stringp` and the object. -/
def CHECK_STRING (x : Lisp_Object) : Option LispError :=
  if STRINGP x then none else some (.wrong_type_argument Qstringp x)

/-! The native clipboard service and the state -/

/-- The three selection classes, each backed by one native clipboard. -/
inductive Clip where
  | primary
  | secondary
  | system
  deriving DecidableEq

/-- The symbol that names a class. -/
def Clip.toLisp : Clip → Lisp_Object
  | .primary => QPRIMARY
  | .secondary => QSECONDARY
  | .system => QCLIPBOARD

/-- The native functions of haikuselect.h, each acting on the store of its own
class.  A `targets` function gives the content of the caller's buffer after the
call, slot by slot (`none` is a null pointer, `some mem` a pointer to the bytes
`mem`); a `find` function gives the returned pointer and the value written to
`len`, a count of bytes; a `set` function gives the new store. -/
structure NativeService (Store : Type) where
  BClipboard_primary_targets : Store → Nat → List (Option (List Byte))
  BClipboard_secondary_targets : Store → Nat → List (Option (List Byte))
  BClipboard_system_targets : Store → Nat → List (Option (List Byte))
  BClipboard_find_primary_selection_data : Store → List Byte → Option (List Byte) × Nat
  BClipboard_find_secondary_selection_data : Store → List Byte → Option (List Byte) × Nat
  BClipboard_find_system_data : Store → List Byte → Option (List Byte) × Nat
  BClipboard_set_primary_selection_data :
    Store → List Byte → Option (List Byte) → Nat → Bool → Store
  BClipboard_set_secondary_selection_data :
    Store → List Byte → Option (List Byte) → Nat → Bool → Store
  BClipboard_set_system_data :
    Store → List Byte → Option (List Byte) → Nat → Bool → Store
  BClipboard_owns_primary : Store → Bool
  BClipboard_owns_secondary : Store → Bool
  BClipboard_owns_clipboard : Store → Bool

/-- One call of the native service, with its arguments. -/
inductive NativeCall where
  | targets (clip : Clip) (buf_size : Nat)
  | find_data (clip : Clip) (type : List Byte)
  | free_data (dat : List Byte)
  | set_data (clip : Clip) (type : List Byte) (dat : Option (List Byte)) (len : Nat)
      (clear : Bool)
  | owns (clip : Clip)
  deriving DecidableEq

/-- The state the primitives run in: the native store of each class, the depth
of `block_input` (`interrupt_input_blocked` of blockinput.h) and the native
calls made so far, oldest first, each with the depth it was made at. -/
structure State (Store : Type) where
  primary : Store
  secondary : Store
  system : Store
  interrupt_input_blocked : Int
  calls : List (NativeCall × Int)

variable {Store : Type}

/-- The native store of a class. -/
def State.store (s : State Store) : Clip → Store
  | .primary => s.primary
  | .secondary => s.secondary
  | .system => s.system

/-- The state with the store of class `c` replaced. -/
def State.with_store (s : State Store) (c : Clip) (st : Store) : State Store :=
  match c with
  | .primary => { s with primary := st }
  | .secondary => { s with secondary := st }
  | .system => { s with system := st }

/-- The native enumeration of a class. -/
def NativeService.targets (N : NativeService Store) : Clip → Store → Nat → List (Option (List Byte))
  | .primary => N.BClipboard_primary_targets
  | .secondary => N.BClipboard_secondary_targets
  | .system => N.BClipboard_system_targets

/-- The native fetch of a class. -/
def NativeService.find (N : NativeService Store) :
    Clip → Store → List Byte → Option (List Byte) × Nat
  | .primary => N.BClipboard_find_primary_selection_data
  | .secondary => N.BClipboard_find_secondary_selection_data
  | .system => N.BClipboard_find_system_data

/-- The native store call of a class. -/
def NativeService.set (N : NativeService Store) :
    Clip → Store → List Byte → Option (List Byte) → Nat → Bool → Store
  | .primary => N.BClipboard_set_primary_selection_data
  | .secondary => N.BClipboard_set_secondary_selection_data
  | .system => N.BClipboard_set_system_data

/-- The native ownership query of a class. -/
def NativeService.owns (N : NativeService Store) : Clip → Store → Bool
  | .primary => N.BClipboard_owns_primary
  | .secondary => N.BClipboard_owns_secondary
  | .system => N.BClipboard_owns_clipboard

/-- Modelled from the spec: `block_input` (blockinput.h, not under src/) opens
the "scoped suspension" of input processing of section 5; suspensions nest, so
it raises the depth by one. -/
def block_input (s : State Store) : State Store :=
  { s with interrupt_input_blocked := s.interrupt_input_blocked + 1 }

/-- Modelled from the spec: `unblock_input` (blockinput.h, not under src/)
releases one suspension: it lowers the depth by one. -/
def unblock_input (s : State Store) : State Store :=
  { s with interrupt_input_blocked := s.interrupt_input_blocked - 1 }

/-- Log a native call at the current depth.  The log is not in the C code; it
is what the statements about "one native call" and "a call made while input
is blocked" are read from. -/
def native_call (c : NativeCall) (s : State Store) : State Store :=
  { s with calls := s.calls ++ [(c, s.interrupt_input_blocked)] }

/-! The primitives -/

/-- The loop `for (i = 0; targets[i]; ++i)` of `haiku_selection_data_1`.  The
list is the slots `targets[i]`, `targets[i + 1]`, ... of the array that are
left; when none is left the loop reads a slot outside the array, which is
`none` here. -/
def haiku_selection_data_1_loop : List (Option (List Byte)) → Lisp_Object → Option Lisp_Object
  | [], _ => none
  | none :: _, result => some result
  | some target :: rest, result =>
      haiku_selection_data_1_loop rest (Fcons (build_unibyte_string target) result)

/-- The function `haiku_selection_data_1`.  The array `char *targets[256]` is the
first 256 slots of what the native call leaves in the buffer. -/
def haiku_selection_data_1 (N : NativeService Store) (clipboard : Lisp_Object)
    (s : State Store) : Outcome × State Store :=
  let result := Qnil
  let s := block_input s
  let filled : Option (List (Option (List Byte)) × State Store) :=
    if EQ clipboard QPRIMARY then
      some (N.BClipboard_primary_targets s.primary 256, native_call (.targets .primary 256) s)
    else if EQ clipboard QSECONDARY then
      some (N.BClipboard_secondary_targets s.secondary 256,
        native_call (.targets .secondary 256) s)
    else if EQ clipboard QCLIPBOARD then
      some (N.BClipboard_system_targets s.system 256, native_call (.targets .system 256) s)
    else none
  match filled with
  | none => (.signal (signal_error "Bad clipboard" clipboard), unblock_input s)
  | some (targets, s) =>
    match haiku_selection_data_1_loop (targets.take 256) result with
    | none => (.undefined, s)
    | some result => (.value result, unblock_input s)

/-- The primitive `haiku-selection-targets`. -/
def Fhaiku_selection_targets (N : NativeService Store) (clipboard : Lisp_Object)
    (s : State Store) : Outcome × State Store :=
  haiku_selection_data_1 N clipboard s

/-- The primitive `haiku-selection-data`. -/
def Fhaiku_selection_data (N : NativeService Store) (clipboard name : Lisp_Object)
    (s : State Store) : Outcome × State Store :=
  match CHECK_SYMBOL clipboard with
  | some e => (.signal e, s)
  | none =>
  match CHECK_STRING name with
  | some e => (.signal e, s)
  | none =>
  let s := block_input s
  let found : Option ((Option (List Byte) × Nat) × State Store) :=
    if EQ clipboard QPRIMARY then
      some (N.BClipboard_find_primary_selection_data s.primary (SSDATA name),
        native_call (.find_data .primary (SSDATA name)) s)
    else if EQ clipboard QSECONDARY then
      some (N.BClipboard_find_secondary_selection_data s.secondary (SSDATA name),
        native_call (.find_data .secondary (SSDATA name)) s)
    else if EQ clipboard QCLIPBOARD then
      some (N.BClipboard_find_system_data s.system (SSDATA name),
        native_call (.find_data .system (SSDATA name)) s)
    else none
  match found with
  | none => (.signal (signal_error "Bad clipboard" clipboard), unblock_input s)
  | some ((dat, len), s) =>
    let s := unblock_input s
    match dat with
    | none => (.value Qnil, s)
    | some dat =>
      let str := make_unibyte_string dat len
      let str := Fput_text_property (make_fixnum 0) (make_fixnum len) Qforeign_selection Qt str
      let s := block_input s
      let s := native_call (.free_data dat) s
      let s := unblock_input s
      (.value str, s)

/-- The primitive `haiku-selection-put`. -/
def Fhaiku_selection_put (N : NativeService Store) (clipboard name data clear : Lisp_Object)
    (s : State Store) : Outcome × State Store :=
  match CHECK_SYMBOL clipboard with
  | some e => (.signal e, s)
  | none =>
  match CHECK_STRING name with
  | some e => (.signal e, s)
  | none =>
  match (if !NILP data then CHECK_STRING data else none) with
  | some e => (.signal e, s)
  | none =>
  let s := block_input s
  let dat : Option (List Byte) := if !NILP data then some (SSDATA data) else none
  let len : Nat := if !NILP data then SBYTES data else 0
  let clear_flag : Bool := !NILP clear
  let stored : Option (State Store) :=
    if EQ clipboard QPRIMARY then
      let store := N.BClipboard_set_primary_selection_data s.primary (SSDATA name) dat len clear_flag
      some (native_call (.set_data .primary (SSDATA name) dat len clear_flag)
        { s with primary := store })
    else if EQ clipboard QSECONDARY then
      let store :=
        N.BClipboard_set_secondary_selection_data s.secondary (SSDATA name) dat len clear_flag
      some (native_call (.set_data .secondary (SSDATA name) dat len clear_flag)
        { s with secondary := store })
    else if EQ clipboard QCLIPBOARD then
      let store := N.BClipboard_set_system_data s.system (SSDATA name) dat len clear_flag
      some (native_call (.set_data .system (SSDATA name) dat len clear_flag)
        { s with system := store })
    else none
  match stored with
  | none => (.signal (signal_error "Bad clipboard" clipboard), unblock_input s)
  | some s => (.value Qnil, unblock_input s)

/-- The primitive `haiku-selection-owner-p`. -/
def Fhaiku_selection_owner_p (N : NativeService Store) (selection : Lisp_Object)
    (s : State Store) : Outcome × State Store :=
  let selection :=
    if NILP selection then QPRIMARY
    else if EQ selection Qt then QSECONDARY
    else selection
  let s := block_input s
  let answer : Bool × State Store :=
    if EQ selection QPRIMARY then
      (N.BClipboard_owns_primary s.primary, native_call (.owns .primary) s)
    else if EQ selection QSECONDARY then
      (N.BClipboard_owns_secondary s.secondary, native_call (.owns .secondary) s)
    else if EQ selection QCLIPBOARD then
      (N.BClipboard_owns_clipboard s.system, native_call (.owns .system) s)
    else (false, s)
  let value := answer.1
  let s := unblock_input answer.2
  (.value (if value then Qt else Qnil), s)

/-! A reference native service

The native clipboard is not part of haikuselect.c.  The service below follows
the boundary contract of the specification (section 6) and serves as the
concrete service the theorems are evaluated on. -/

/-- Modelled from the spec: the native clipboard store of one class (section 3:
"exactly one native clipboard store backs each class"), as the entries it
holds, oldest first, and whether this process owns it. -/
structure RefStore where
  entries : List (List Byte × List Byte)
  owned : Bool
  deriving DecidableEq

/-- Modelled from the spec: the native `store(C, target_name, buffer_or_null,
length, clear_flag)` of section 6.  The clear flag erases the prior content; a
null buffer removes the entry of the target; otherwise the first `len` bytes of
the buffer become the entry of the target. -/
def refSet (st : RefStore) (type : List Byte) (dat : Option (List Byte)) (len : Nat)
    (clear : Bool) : RefStore :=
  let kept := if clear then [] else st.entries.filter (fun e => !(e.1 == type))
  match dat with
  | none => { entries := kept, owned := true }
  | some buffer => { entries := kept ++ [(type, buffer.take len)], owned := true }

/-- Modelled from the spec: the native `fetch(C, target_name)` of section 6:
"(buffer, length) or (null, 0) if absent". -/
def refFind (st : RefStore) (type : List Byte) : Option (List Byte) × Nat :=
  match st.entries.find? (fun e => e.1 == type) with
  | some e => (some e.2, e.2.length)
  | none => (none, 0)

/-- Modelled from the spec: the native `enumerate(C, max_count)` of section 6:
the names of the entries, at most `max_count - 1` of them, each with its
terminating zero byte, then null slots up to `max_count`. -/
def refTargets (st : RefStore) (max_count : Nat) : List (Option (List Byte)) :=
  let names := (st.entries.map (fun e => some (e.1 ++ [0]))).take (max_count - 1)
  names ++ List.replicate (max_count - names.length) none

/-- Modelled from the spec: the native `owns(C)` of section 6. -/
def refOwns (st : RefStore) : Bool := st.owned

/-- Modelled from the spec: the native service of section 6, the same for each
of the three classes. -/
def refNative : NativeService RefStore where
  BClipboard_primary_targets := refTargets
  BClipboard_secondary_targets := refTargets
  BClipboard_system_targets := refTargets
  BClipboard_find_primary_selection_data := refFind
  BClipboard_find_secondary_selection_data := refFind
  BClipboard_find_system_data := refFind
  BClipboard_set_primary_selection_data := refSet
  BClipboard_set_secondary_selection_data := refSet
  BClipboard_set_system_data := refSet
  BClipboard_owns_primary := refOwns
  BClipboard_owns_secondary := refOwns
  BClipboard_owns_clipboard := refOwns

/-- An enumeration that writes a target, the C string "a", into every slot of
the buffer and no null slot. -/
def fullTargets (_st : RefStore) (max_count : Nat) : List (Option (List Byte)) :=
  List.replicate max_count (some [97, 0])

/-- The reference service with the enumeration that leaves no null slot. -/
def fullNative : NativeService RefStore :=
  { refNative with
    BClipboard_primary_targets := fullTargets
    BClipboard_secondary_targets := fullTargets
    BClipboard_system_targets := fullTargets }

/-- The state in which the three clipboards are empty and not owned. -/
def emptyState : State RefStore where
  primary := { entries := [], owned := false }
  secondary := { entries := [], owned := false }
  system := { entries := [], owned := false }
  interrupt_input_blocked := 0
  calls := []

/-- The state in which the primary selection holds two targets, "a" then "b". -/
def twoTargetsState : State RefStore :=
  { emptyState with primary := { entries := [([97], [1]), ([98], [2])], owned := true } }

/-- The bytes of "text/plain". -/
def text_plain : List Byte := [116, 101, 120, 116, 47, 112, 108, 97, 105, 110]

/-- The eleven bytes of the example of section 8: "héllo" with one byte for
each character, a zero byte, "world". -/
def hello_world : List Byte := [104, 233, 108, 108, 111, 0, 119, 111, 114, 108, 100]

/-- The string "text/plain" as a Lisp object. -/
def text_plain_string : Lisp_Object := .string text_plain false []

/-- The string of the example of section 8 as a Lisp object. -/
def hello_world_string : Lisp_Object := .string hello_world false []

/-! Reference definitions written from the specification -/

/-- Reference definition of query-ownership, following the words of the
specification: the native `owns` of Primary for an absent class (`nil`) or
`PRIMARY`, of Secondary for `t` or `SECONDARY`, of Clipboard for `CLIPBOARD`,
and "not owned" for every other value. -/
def query_ownership_reference (N : NativeService Store) (selection : Lisp_Object)
    (s : State Store) : Bool :=
  match selection with
  | .symbol "nil" => N.owns .primary (s.store .primary)
  | .symbol "PRIMARY" => N.owns .primary (s.store .primary)
  | .symbol "t" => N.owns .secondary (s.store .secondary)
  | .symbol "SECONDARY" => N.owns .secondary (s.store .secondary)
  | .symbol "CLIPBOARD" => N.owns .system (s.store .system)
  | _ => false

/-- The class is one of `PRIMARY`, `SECONDARY`, `CLIPBOARD`. -/
def valid_clipboard (clipboard : Lisp_Object) : Bool :=
  EQ clipboard QPRIMARY || EQ clipboard QSECONDARY || EQ clipboard QCLIPBOARD

/-- The store/fetch contract of section 6 for the native store of class `c`:
after `store (c, target, buffer, length, clear)` with a buffer of at least
`length` bytes, `fetch (c, target)` gives a buffer and that `length`, and the
first `length` bytes of the two buffers are the same. -/
def StoreFetchContract (N : NativeService Store) (c : Clip) : Prop :=
  ∀ (st : Store) (type buffer : List Byte) (len : Nat) (clear : Bool),
    len ≤ buffer.length →
    ∃ out, N.find c (N.set c st type (some buffer) len clear) type = (some out, len)
      ∧ out.take len = buffer.take len

/-- The three native stores are the same in the two states. -/
def SameStores (s t : State Store) : Prop :=
  t.primary = s.primary ∧ t.secondary = s.secondary ∧ t.system = s.system

/-- The depth of `block_input` is the same in the two states. -/
def SameDepth (s t : State Store) : Prop :=
  t.interrupt_input_blocked = s.interrupt_input_blocked

/-- Every native call made between state `s` and state `t` was made at a depth
strictly above the depth of `s`. -/
def CallsInsideBlock (s t : State Store) : Prop :=
  ∃ made, t.calls = s.calls ++ made ∧ ∀ p ∈ made, s.interrupt_input_blocked < p.2

/-- The targets in the buffer that precede the first null slot. -/
def targets_before_null : List (Option (List Byte)) → List (List Byte)
  | some target :: rest => target :: targets_before_null rest
  | _ => []

/-! How each primitive runs, case by case -/

theorem EQ_symbol (a b : String) : EQ (.symbol a) (.symbol b) = decide (a = b) := rfl

theorem clipboard_cases (clipboard : Lisp_Object) :
    (∃ c : Clip, clipboard = c.toLisp) ∨
      (EQ clipboard QPRIMARY = false ∧ EQ clipboard QSECONDARY = false
        ∧ EQ clipboard QCLIPBOARD = false) := by
  cases clipboard with
  | symbol name =>
    by_cases h1 : name = "PRIMARY"
    · exact Or.inl ⟨.primary, by subst h1; rfl⟩
    by_cases h2 : name = "SECONDARY"
    · exact Or.inl ⟨.secondary, by subst h2; rfl⟩
    by_cases h3 : name = "CLIPBOARD"
    · exact Or.inl ⟨.system, by subst h3; rfl⟩
    exact Or.inr (by simp [QPRIMARY, QSECONDARY, QCLIPBOARD, EQ_symbol, h1, h2, h3])
  | fixnum n => exact Or.inr ⟨rfl, rfl, rfl⟩
  | string d m i => exact Or.inr ⟨rfl, rfl, rfl⟩
  | cons a b => exact Or.inr ⟨rfl, rfl, rfl⟩

theorem SYMBOLP_toLisp (c : Clip) : SYMBOLP c.toLisp = true := by
  cases c <;> rfl

theorem valid_clipboard_false {clipboard : Lisp_Object} (h : valid_clipboard clipboard = false) :
    EQ clipboard QPRIMARY = false ∧ EQ clipboard QSECONDARY = false
      ∧ EQ clipboard QCLIPBOARD = false := by
  simpa [valid_clipboard, and_assoc] using h

theorem targets_run_valid (N : NativeService Store) (c : Clip) (s : State Store) :
    haiku_selection_data_1 N c.toLisp s =
      match haiku_selection_data_1_loop ((N.targets c (s.store c) 256).take 256) Qnil with
      | none => (.undefined, native_call (.targets c 256) (block_input s))
      | some result =>
          (.value result, unblock_input (native_call (.targets c 256) (block_input s))) := by
  cases c <;> rfl

theorem targets_run_bad (N : NativeService Store) (clipboard : Lisp_Object) (s : State Store)
    (h1 : EQ clipboard QPRIMARY = false) (h2 : EQ clipboard QSECONDARY = false)
    (h3 : EQ clipboard QCLIPBOARD = false) :
    haiku_selection_data_1 N clipboard s =
      (.signal (.error "Bad clipboard" clipboard), unblock_input (block_input s)) := by
  simp [haiku_selection_data_1, h1, h2, h3, signal_error]

theorem data_run_not_symbol (N : NativeService Store) (clipboard name : Lisp_Object)
    (s : State Store) (h : SYMBOLP clipboard = false) :
    Fhaiku_selection_data N clipboard name s =
      (.signal (.wrong_type_argument Qsymbolp clipboard), s) := by
  simp [Fhaiku_selection_data, CHECK_SYMBOL, h]

theorem data_run_not_string (N : NativeService Store) (clipboard name : Lisp_Object)
    (s : State Store) (h : SYMBOLP clipboard = true) (hn : STRINGP name = false) :
    Fhaiku_selection_data N clipboard name s =
      (.signal (.wrong_type_argument Qstringp name), s) := by
  simp [Fhaiku_selection_data, CHECK_SYMBOL, CHECK_STRING, h, hn]

theorem data_run_bad (N : NativeService Store) (clipboard name : Lisp_Object) (s : State Store)
    (h : SYMBOLP clipboard = true) (hn : STRINGP name = true)
    (h1 : EQ clipboard QPRIMARY = false) (h2 : EQ clipboard QSECONDARY = false)
    (h3 : EQ clipboard QCLIPBOARD = false) :
    Fhaiku_selection_data N clipboard name s =
      (.signal (.error "Bad clipboard" clipboard), unblock_input (block_input s)) := by
  simp [Fhaiku_selection_data, CHECK_SYMBOL, CHECK_STRING, h, hn, h1, h2, h3, signal_error]

theorem EQ_QPRIMARY_QPRIMARY : EQ QPRIMARY QPRIMARY = true := rfl
theorem EQ_QSECONDARY_QPRIMARY : EQ QSECONDARY QPRIMARY = false := rfl
theorem EQ_QSECONDARY_QSECONDARY : EQ QSECONDARY QSECONDARY = true := rfl
theorem EQ_QCLIPBOARD_QPRIMARY : EQ QCLIPBOARD QPRIMARY = false := rfl
theorem EQ_QCLIPBOARD_QSECONDARY : EQ QCLIPBOARD QSECONDARY = false := rfl
theorem EQ_QCLIPBOARD_QCLIPBOARD : EQ QCLIPBOARD QCLIPBOARD = true := rfl
theorem SYMBOLP_QPRIMARY : SYMBOLP QPRIMARY = true := rfl
theorem SYMBOLP_QSECONDARY : SYMBOLP QSECONDARY = true := rfl
theorem SYMBOLP_QCLIPBOARD : SYMBOLP QCLIPBOARD = true := rfl

theorem data_run_absent (N : NativeService Store) (c : Clip) (name : Lisp_Object)
    (s : State Store) (hn : STRINGP name = true) (len : Nat)
    (hf : N.find c (s.store c) (SSDATA name) = (none, len)) :
    Fhaiku_selection_data N c.toLisp name s =
      (.value Qnil, unblock_input (native_call (.find_data c (SSDATA name)) (block_input s))) := by
  cases c <;>
    simp only [NativeService.find, State.store] at hf <;>
    simp [Fhaiku_selection_data, CHECK_SYMBOL, CHECK_STRING, hn, Clip.toLisp,
      EQ_QPRIMARY_QPRIMARY, EQ_QSECONDARY_QPRIMARY, EQ_QSECONDARY_QSECONDARY,
      EQ_QCLIPBOARD_QPRIMARY, EQ_QCLIPBOARD_QSECONDARY, EQ_QCLIPBOARD_QCLIPBOARD,
      SYMBOLP_QPRIMARY, SYMBOLP_QSECONDARY, SYMBOLP_QCLIPBOARD, block_input, hf]

theorem data_run_present (N : NativeService Store) (c : Clip) (name : Lisp_Object)
    (s : State Store) (hn : STRINGP name = true) (dat : List Byte) (len : Nat)
    (hf : N.find c (s.store c) (SSDATA name) = (some dat, len)) :
    Fhaiku_selection_data N c.toLisp name s =
      (.value (Fput_text_property (make_fixnum 0) (make_fixnum len) Qforeign_selection Qt
          (make_unibyte_string dat len)),
        unblock_input (native_call (.free_data dat) (block_input
          (unblock_input (native_call (.find_data c (SSDATA name)) (block_input s)))))) := by
  cases c <;>
    simp only [NativeService.find, State.store] at hf <;>
    simp [Fhaiku_selection_data, CHECK_SYMBOL, CHECK_STRING, hn, Clip.toLisp,
      EQ_QPRIMARY_QPRIMARY, EQ_QSECONDARY_QPRIMARY, EQ_QSECONDARY_QSECONDARY,
      EQ_QCLIPBOARD_QPRIMARY, EQ_QCLIPBOARD_QSECONDARY, EQ_QCLIPBOARD_QCLIPBOARD,
      SYMBOLP_QPRIMARY, SYMBOLP_QSECONDARY, SYMBOLP_QCLIPBOARD, block_input, hf]

theorem put_run_not_symbol (N : NativeService Store) (clipboard name data clear : Lisp_Object)
    (s : State Store) (h : SYMBOLP clipboard = false) :
    Fhaiku_selection_put N clipboard name data clear s =
      (.signal (.wrong_type_argument Qsymbolp clipboard), s) := by
  simp [Fhaiku_selection_put, CHECK_SYMBOL, h]

theorem put_run_not_string (N : NativeService Store) (clipboard name data clear : Lisp_Object)
    (s : State Store) (h : SYMBOLP clipboard = true) (hn : STRINGP name = false) :
    Fhaiku_selection_put N clipboard name data clear s =
      (.signal (.wrong_type_argument Qstringp name), s) := by
  simp [Fhaiku_selection_put, CHECK_SYMBOL, CHECK_STRING, h, hn]

theorem put_run_bad_data (N : NativeService Store) (clipboard name data clear : Lisp_Object)
    (s : State Store) (h : SYMBOLP clipboard = true) (hn : STRINGP name = true)
    (hd : NILP data = false) (hs : STRINGP data = false) :
    Fhaiku_selection_put N clipboard name data clear s =
      (.signal (.wrong_type_argument Qstringp data), s) := by
  simp [Fhaiku_selection_put, CHECK_SYMBOL, CHECK_STRING, h, hn, hd, hs]

theorem put_run_bad (N : NativeService Store) (clipboard name data clear : Lisp_Object)
    (s : State Store) (h : SYMBOLP clipboard = true) (hn : STRINGP name = true)
    (hd : NILP data = true ∨ STRINGP data = true)
    (h1 : EQ clipboard QPRIMARY = false) (h2 : EQ clipboard QSECONDARY = false)
    (h3 : EQ clipboard QCLIPBOARD = false) :
    Fhaiku_selection_put N clipboard name data clear s =
      (.signal (.error "Bad clipboard" clipboard), unblock_input (block_input s)) := by
  rcases hd with hd | hd <;>
    simp [Fhaiku_selection_put, CHECK_SYMBOL, CHECK_STRING, h, hn, hd, h1, h2, h3, signal_error]

theorem put_run_valid (N : NativeService Store) (c : Clip) (name data clear : Lisp_Object)
    (s : State Store) (hn : STRINGP name = true)
    (hd : NILP data = true ∨ STRINGP data = true) :
    Fhaiku_selection_put N c.toLisp name data clear s =
      (.value Qnil,
        unblock_input
          (native_call
            (.set_data c (SSDATA name) (if !NILP data then some (SSDATA data) else none)
              (if !NILP data then SBYTES data else 0) (!NILP clear))
            ((block_input s).with_store c
              (N.set c (s.store c) (SSDATA name)
                (if !NILP data then some (SSDATA data) else none)
                (if !NILP data then SBYTES data else 0) (!NILP clear))))) := by
  rcases hd with hd | hd <;> cases c <;>
    simp [Fhaiku_selection_put, CHECK_SYMBOL, CHECK_STRING, hn, hd, Clip.toLisp,
      EQ_QPRIMARY_QPRIMARY, EQ_QSECONDARY_QPRIMARY, EQ_QSECONDARY_QSECONDARY,
      EQ_QCLIPBOARD_QPRIMARY, EQ_QCLIPBOARD_QSECONDARY, EQ_QCLIPBOARD_QCLIPBOARD,
      SYMBOLP_QPRIMARY, SYMBOLP_QSECONDARY, SYMBOLP_QCLIPBOARD, block_input,
      NativeService.set, State.store, State.with_store]

theorem owner_p_state (N : NativeService Store) (selection : Lisp_Object) (s : State Store) :
    (Fhaiku_selection_owner_p N selection s).2 = unblock_input (block_input s) ∨
      ∃ c, (Fhaiku_selection_owner_p N selection s).2
        = unblock_input (native_call (.owns c) (block_input s)) := by
  unfold Fhaiku_selection_owner_p
  simp only []
  split_ifs <;>
    first
    | exact Or.inl rfl
    | exact Or.inr ⟨.primary, rfl⟩
    | exact Or.inr ⟨.secondary, rfl⟩
    | exact Or.inr ⟨.system, rfl⟩

theorem NILP_iff (x : Lisp_Object) : NILP x = true ↔ x = Qnil := by
  cases x <;> simp [NILP, EQ, Qnil]

theorem tagged_property_at (data : List Byte) (len : Nat) (i : Int) (h0 : 0 ≤ i)
    (hi : i < len) :
    Fget_text_property i Qforeign_selection
      (.string data false [(0, (len : Int), Qforeign_selection, Qt)]) = Qt := by
  simp [Fget_text_property, string_intervals, h0, hi, Qforeign_selection, EQ_symbol]

/-! Stores, depth and calls along a run -/

theorem store_with_store_same (s : State Store) (c : Clip) (st : Store) :
    (s.with_store c st).store c = st := by
  cases c <;> rfl

theorem store_with_store_other (s : State Store) (c d : Clip) (st : Store) (h : d ≠ c) :
    (s.with_store c st).store d = s.store d := by
  cases c <;> cases d <;> first | rfl | exact absurd rfl h

theorem store_block_input (s : State Store) (c : Clip) : (block_input s).store c = s.store c := by
  cases c <;> rfl

theorem store_unblock_input (s : State Store) (c : Clip) :
    (unblock_input s).store c = s.store c := by
  cases c <;> rfl

theorem store_native_call (x : NativeCall) (s : State Store) (c : Clip) :
    (native_call x s).store c = s.store c := by
  cases c <;> rfl

theorem sameStores_refl (s : State Store) : SameStores s s := ⟨rfl, rfl, rfl⟩

theorem sameStores_bracket (s : State Store) : SameStores s (unblock_input (block_input s)) :=
  ⟨rfl, rfl, rfl⟩

theorem sameStores_call (x : NativeCall) (s : State Store) :
    SameStores s (native_call x (block_input s)) :=
  ⟨rfl, rfl, rfl⟩

theorem sameStores_bracket_call (x : NativeCall) (s : State Store) :
    SameStores s (unblock_input (native_call x (block_input s))) :=
  ⟨rfl, rfl, rfl⟩

theorem sameStores_two_brackets (x y : NativeCall) (s : State Store) :
    SameStores s (unblock_input (native_call y (block_input
      (unblock_input (native_call x (block_input s)))))) :=
  ⟨rfl, rfl, rfl⟩

theorem run_none (s : State Store) : SameDepth s s ∧ CallsInsideBlock s s :=
  ⟨rfl, [], by simp, by simp⟩

theorem run_bracket (s : State Store) :
    SameDepth s (unblock_input (block_input s))
      ∧ CallsInsideBlock s (unblock_input (block_input s)) :=
  ⟨by simp [SameDepth, unblock_input, block_input],
    [], by simp [unblock_input, block_input], by simp⟩

theorem run_call_open (x : NativeCall) (s : State Store) :
    CallsInsideBlock s (native_call x (block_input s)) :=
  ⟨[(x, s.interrupt_input_blocked + 1)], by simp [native_call, block_input], by simp⟩

theorem run_bracket_call (x : NativeCall) (s : State Store) :
    SameDepth s (unblock_input (native_call x (block_input s)))
      ∧ CallsInsideBlock s (unblock_input (native_call x (block_input s))) :=
  ⟨by simp [SameDepth, unblock_input, native_call, block_input],
    [(x, s.interrupt_input_blocked + 1)],
    by simp [unblock_input, native_call, block_input], by simp⟩

theorem run_bracket_store (x : NativeCall) (s : State Store) (c : Clip) (st : Store) :
    SameDepth s (unblock_input (native_call x ((block_input s).with_store c st)))
      ∧ CallsInsideBlock s (unblock_input (native_call x ((block_input s).with_store c st))) := by
  cases c <;>
    exact ⟨by simp [SameDepth, unblock_input, native_call, block_input, State.with_store],
      [(x, s.interrupt_input_blocked + 1)],
      by simp [unblock_input, native_call, block_input, State.with_store], by simp⟩

theorem run_two_brackets (x y : NativeCall) (s : State Store) :
    SameDepth s (unblock_input (native_call y (block_input
        (unblock_input (native_call x (block_input s))))))
      ∧ CallsInsideBlock s (unblock_input (native_call y (block_input
        (unblock_input (native_call x (block_input s)))))) :=
  ⟨by simp [SameDepth, unblock_input, native_call, block_input],
    [(x, s.interrupt_input_blocked + 1), (y, s.interrupt_input_blocked + 1)],
    by simp [unblock_input, native_call, block_input], by simp⟩

theorem bool_not_true {b : Bool} (h : ¬ b = true) : b = false := by
  cases b
  · rfl
  · exact absurd rfl h

theorem targets_facts (N : NativeService Store) (clipboard : Lisp_Object) (s : State Store) :
    SameStores s (haiku_selection_data_1 N clipboard s).2
      ∧ CallsInsideBlock s (haiku_selection_data_1 N clipboard s).2
      ∧ ((haiku_selection_data_1 N clipboard s).1 ≠ .undefined →
          SameDepth s (haiku_selection_data_1 N clipboard s).2) := by
  rcases clipboard_cases clipboard with ⟨c, rfl⟩ | ⟨h1, h2, h3⟩
  · rw [targets_run_valid]
    cases haiku_selection_data_1_loop ((N.targets c (s.store c) 256).take 256) Qnil with
    | none => exact ⟨sameStores_call _ s, run_call_open _ s, fun h => absurd rfl h⟩
    | some result =>
      exact ⟨sameStores_bracket_call _ s, (run_bracket_call _ s).2,
        fun _ => (run_bracket_call _ s).1⟩
  · rw [targets_run_bad N clipboard s h1 h2 h3]
    exact ⟨sameStores_bracket s, (run_bracket s).2, fun _ => (run_bracket s).1⟩

theorem data_facts (N : NativeService Store) (clipboard name : Lisp_Object) (s : State Store) :
    SameStores s (Fhaiku_selection_data N clipboard name s).2
      ∧ SameDepth s (Fhaiku_selection_data N clipboard name s).2
      ∧ CallsInsideBlock s (Fhaiku_selection_data N clipboard name s).2 := by
  by_cases hs : SYMBOLP clipboard = true
  swap
  · rw [data_run_not_symbol N clipboard name s (bool_not_true hs)]
    exact ⟨sameStores_refl s, run_none s⟩
  by_cases hn : STRINGP name = true
  swap
  · rw [data_run_not_string N clipboard name s hs (bool_not_true hn)]
    exact ⟨sameStores_refl s, run_none s⟩
  rcases clipboard_cases clipboard with ⟨c, rfl⟩ | ⟨h1, h2, h3⟩
  · rcases hf : N.find c (s.store c) (SSDATA name) with ⟨_ | dat, len⟩
    · rw [data_run_absent N c name s hn len hf]
      exact ⟨sameStores_bracket_call _ s, run_bracket_call _ s⟩
    · rw [data_run_present N c name s hn dat len hf]
      exact ⟨sameStores_two_brackets _ _ s, run_two_brackets _ _ s⟩
  · rw [data_run_bad N clipboard name s hs hn h1 h2 h3]
    exact ⟨sameStores_bracket s, run_bracket s⟩

theorem data_value_of_store (N : NativeService Store) (c : Clip) (name : Lisp_Object)
    (s t : State Store) (h : t.store c = s.store c) :
    (Fhaiku_selection_data N c.toLisp name t).1 = (Fhaiku_selection_data N c.toLisp name s).1 := by
  by_cases hn : STRINGP name = true
  swap
  · rw [data_run_not_string N _ name s (SYMBOLP_toLisp c) (bool_not_true hn),
      data_run_not_string N _ name t (SYMBOLP_toLisp c) (bool_not_true hn)]
  rcases hf : N.find c (s.store c) (SSDATA name) with ⟨_ | dat, len⟩
  · rw [data_run_absent N c name s hn len hf, data_run_absent N c name t hn len (h ▸ hf)]
  · rw [data_run_present N c name s hn dat len hf,
      data_run_present N c name t hn dat len (h ▸ hf)]

theorem targets_value_of_store (N : NativeService Store) (c : Clip) (s t : State Store)
    (h : t.store c = s.store c) :
    (haiku_selection_data_1 N c.toLisp t).1 = (haiku_selection_data_1 N c.toLisp s).1 := by
  rw [targets_run_valid, targets_run_valid, h]
  cases haiku_selection_data_1_loop ((N.targets c (s.store c) 256).take 256) Qnil <;> rfl

theorem put_cases (N : NativeService Store) (clipboard name data clear : Lisp_Object)
    (s : State Store) :
    (∃ e, Fhaiku_selection_put N clipboard name data clear s = (.signal e, s))
      ∨ (∃ e, Fhaiku_selection_put N clipboard name data clear s
          = (.signal e, unblock_input (block_input s)))
      ∨ (∃ c x st, clipboard = c.toLisp ∧ Fhaiku_selection_put N clipboard name data clear s
          = (.value Qnil, unblock_input (native_call x ((block_input s).with_store c st)))) := by
  by_cases hs : SYMBOLP clipboard = true
  swap
  · exact Or.inl ⟨_, put_run_not_symbol N clipboard name data clear s (bool_not_true hs)⟩
  by_cases hn : STRINGP name = true
  swap
  · exact Or.inl ⟨_, put_run_not_string N clipboard name data clear s hs (bool_not_true hn)⟩
  by_cases hd : NILP data = true ∨ STRINGP data = true
  swap
  · rw [not_or] at hd
    exact Or.inl ⟨_, put_run_bad_data N clipboard name data clear s hs hn
      (bool_not_true hd.1) (bool_not_true hd.2)⟩
  rcases clipboard_cases clipboard with ⟨c, rfl⟩ | ⟨h1, h2, h3⟩
  · exact Or.inr (Or.inr ⟨c, _, _, rfl, put_run_valid N c name data clear s hn hd⟩)
  · exact Or.inr (Or.inl ⟨_, put_run_bad N clipboard name data clear s hs hn hd h1 h2 h3⟩)

theorem put_store_other (N : NativeService Store) (c d : Clip) (name data clear : Lisp_Object)
    (s : State Store) (h : d ≠ c) :
    (Fhaiku_selection_put N c.toLisp name data clear s).2.store d = s.store d := by
  by_cases hn : STRINGP name = true
  swap
  · rw [put_run_not_string N _ name data clear s (SYMBOLP_toLisp c) (bool_not_true hn)]
  by_cases hd : NILP data = true ∨ STRINGP data = true
  swap
  · rw [not_or] at hd
    rw [put_run_bad_data N _ name data clear s (SYMBOLP_toLisp c) hn
      (bool_not_true hd.1) (bool_not_true hd.2)]
  rw [put_run_valid N c name data clear s hn hd]
  simp only [store_unblock_input, store_native_call]
  rw [store_with_store_other _ c d _ h, store_block_input]

theorem put_store_same (N : NativeService Store) (c : Clip) (name data clear : Lisp_Object)
    (s : State Store) (hn : STRINGP name = true) (hd : NILP data = true ∨ STRINGP data = true) :
    (Fhaiku_selection_put N c.toLisp name data clear s).2.store c =
      N.set c (s.store c) (SSDATA name) (if !NILP data then some (SSDATA data) else none)
        (if !NILP data then SBYTES data else 0) (!NILP clear) := by
  rw [put_run_valid N c name data clear s hn hd]
  simp only [store_unblock_input, store_native_call]
  rw [store_with_store_same]

theorem loop_onto (targets : List (Option (List Byte))) :
    ∀ result, none ∈ targets →
      haiku_selection_data_1_loop targets result
        = some (List.foldr Fcons result
            ((targets_before_null targets).map build_unibyte_string).reverse) := by
  induction targets with
  | nil => intro result h; simp at h
  | cons slot rest ih =>
    intro result h
    cases slot with
    | none => simp [haiku_selection_data_1_loop, targets_before_null]
    | some target =>
      have hr : none ∈ rest := by simpa using h
      simp [haiku_selection_data_1_loop, targets_before_null, ih _ hr, List.foldr_append]

theorem lisp_list_eq_foldr (xs : List Lisp_Object) : lisp_list xs = List.foldr Fcons Qnil xs := by
  induction xs with
  | nil => rfl
  | cons x xs ih => simp [lisp_list, ih]

theorem loop_full (targets : List (Option (List Byte))) :
    ∀ result, none ∉ targets → haiku_selection_data_1_loop targets result = none := by
  induction targets with
  | nil => intro result _; rfl
  | cons slot rest ih =>
    intro result h
    cases slot with
    | none => simp at h
    | some target =>
      have hr : none ∉ rest := by simpa using h
      simp [haiku_selection_data_1_loop, ih _ hr]

theorem targets_run_no_null (N : NativeService Store) (c : Clip) (s : State Store)
    (h : none ∉ (N.targets c (s.store c) 256).take 256) :
    (haiku_selection_data_1 N c.toLisp s).1 = .undefined := by
  rw [targets_run_valid, loop_full _ Qnil h]

theorem targets_before_null_length (targets : List (Option (List Byte))) (h : none ∈ targets) :
    (targets_before_null targets).length < targets.length := by
  induction targets with
  | nil => simp at h
  | cons slot rest ih =>
    cases slot with
    | none => simp [targets_before_null]
    | some target =>
      have hr : none ∈ rest := by simpa using h
      simpa [targets_before_null] using ih hr

theorem refNative_contract (c : Clip) : StoreFetchContract refNative c := by
  intro st type buffer len clear hlen
  refine ⟨buffer.take len, ?_, by simp⟩
  have hfind : ∀ kept : List (List Byte × List Byte), (∀ e ∈ kept, ¬ e.1 = type) →
      refFind { entries := kept ++ [(type, buffer.take len)], owned := true } type
        = (some (buffer.take len), len) := by
    intro kept hk
    have hnone : List.find? (fun e => e.1 == type) kept = none := by
      rw [List.find?_eq_none]
      intro e he
      simpa using hk e he
    simp [refFind, List.find?_append, hnone, hlen]
  have hrun : refNative.find c (refNative.set c st type (some buffer) len clear) type
      = refFind (refSet st type (some buffer) len clear) type := by
    cases c <;> rfl
  rw [hrun]
  cases clear with
  | true => exact hfind [] (by simp)
  | false =>
    exact hfind (st.entries.filter (fun e => !(e.1 == type))) (by
      intro e he
      simpa using (List.mem_filter.mp he).2)

/-! The claims -/

set_option maxRecDepth 100000

/-- C1 (round trip): for each of the three classes, every target string, every
byte string `d` (a zero byte is a byte like any other) and either value of the
clear flag, over a native service that meets the store/fetch contract of
section 6 for that class, `haiku-selection-put` returns `nil` and a following
`haiku-selection-data` with the same class and target returns a unibyte string
whose bytes are exactly those of `d`. -/
theorem C1_store_then_fetch_round_trip (N : NativeService Store) (c : Clip)
    (name_data : List Byte) (name_multibyte : Bool)
    (name_intervals : List (Int × Int × Lisp_Object × Lisp_Object))
    (d : List Byte) (d_multibyte : Bool)
    (d_intervals : List (Int × Int × Lisp_Object × Lisp_Object))
    (clear : Lisp_Object) (s : State Store) (hN : StoreFetchContract N c) :
    (Fhaiku_selection_put N c.toLisp (.string name_data name_multibyte name_intervals)
        (.string d d_multibyte d_intervals) clear s).1 = .value Qnil
      ∧ ∃ intervals,
        (Fhaiku_selection_data N c.toLisp (.string name_data name_multibyte name_intervals)
          (Fhaiku_selection_put N c.toLisp (.string name_data name_multibyte name_intervals)
            (.string d d_multibyte d_intervals) clear s).2).1
          = .value (.string d false intervals) := by
  have hst := put_store_same N c (.string name_data name_multibyte name_intervals)
    (.string d d_multibyte d_intervals) clear s rfl (Or.inr rfl)
  have hput := put_run_valid N c (.string name_data name_multibyte name_intervals)
    (.string d d_multibyte d_intervals) clear s rfl (Or.inr rfl)
  refine ⟨by rw [hput], ?_⟩
  have hnil : NILP (.string d d_multibyte d_intervals) = false := rfl
  simp only [hnil, Bool.not_false, if_true, SSDATA, SBYTES] at hst
  obtain ⟨out, hfind, htake⟩ := hN (s.store c) name_data d d.length (!NILP clear) (le_refl _)
  rw [← hst] at hfind
  refine ⟨[(0, (d.length : Int), Qforeign_selection, Qt)], ?_⟩
  rw [data_run_present N c (.string name_data name_multibyte name_intervals) _ rfl out d.length
    hfind]
  simp [Fput_text_property, make_fixnum, make_unibyte_string, htake]

/-- The example of section 8 on the reference service: the eleven bytes stored
under "text/plain" in the clipboard come back as they were. -/
theorem C1_store_then_fetch_round_trip_witness :
    (Fhaiku_selection_put refNative QCLIPBOARD text_plain_string hello_world_string Qt
        emptyState).1 = .value Qnil
      ∧ ∃ intervals,
        (Fhaiku_selection_data refNative QCLIPBOARD text_plain_string
          (Fhaiku_selection_put refNative QCLIPBOARD text_plain_string hello_world_string Qt
            emptyState).2).1
          = .value (.string hello_world false intervals) :=
  C1_store_then_fetch_round_trip refNative .system text_plain false [] hello_world false [] Qt
    emptyState (refNative_contract .system)

/-- C2 (byte fidelity of fetch-data): for every class and every target string,
when the native fetch returns a non-null buffer `buf` (holding at least `len`
bytes) together with the length `len`, `haiku-selection-data` returns a unibyte
string of exactly `len` bytes whose i-th byte is the i-th byte of the buffer
for every `i < len`; the length decides, not a scan for a zero byte, and no
byte is changed. -/
theorem C2_fetch_data_byte_fidelity (N : NativeService Store) (c : Clip)
    (name_data : List Byte) (name_multibyte : Bool)
    (name_intervals : List (Int × Int × Lisp_Object × Lisp_Object)) (s : State Store)
    (buf : List Byte) (len : Nat)
    (hf : N.find c (s.store c) name_data = (some buf, len)) (hlen : len ≤ buf.length) :
    ∃ data intervals,
      (Fhaiku_selection_data N c.toLisp (.string name_data name_multibyte name_intervals) s).1
          = .value (.string data false intervals)
        ∧ data.length = len
        ∧ ∀ i, i < len → data[i]? = buf[i]? := by
  refine ⟨buf.take len, [(0, (len : Int), Qforeign_selection, Qt)], ?_, ?_, ?_⟩
  · rw [data_run_present N c (.string name_data name_multibyte name_intervals) s rfl buf len hf]
    rfl
  · simp [hlen]
  · intro i hi
    exact List.getElem?_take_of_lt hi

/-- A buffer with a zero byte in the middle, fetched from the reference
service, comes back whole: eleven bytes, the seventh of them zero. -/
theorem C2_fetch_data_byte_fidelity_witness :
    refFind ({ entries := [(text_plain, hello_world)], owned := true } : RefStore) text_plain
        = (some hello_world, 11)
      ∧ ∃ data intervals,
        (Fhaiku_selection_data refNative QCLIPBOARD text_plain_string
            { emptyState with
              system := { entries := [(text_plain, hello_world)], owned := true } }).1
          = .value (.string data false intervals)
        ∧ data.length = 11
        ∧ ∀ i, i < 11 → data[i]? = hello_world[i]? :=
  ⟨rfl, C2_fetch_data_byte_fidelity refNative .system text_plain false []
    { emptyState with system := { entries := [(text_plain, hello_world)], owned := true } }
    hello_world 11 rfl (by decide)⟩

/-- C3, the claim as stated fails: the class value 7, a fixnum, is not one of
`PRIMARY`, `SECONDARY`, `CLIPBOARD`, yet `haiku-selection-data` and
`haiku-selection-put` do not signal "Bad clipboard" for it: `CHECK_SYMBOL`
signals `wrong-type-argument` with `symbolp` before the class is looked at. -/
theorem C3_counterexample_fixnum_class :
    valid_clipboard (.fixnum 7) = false
      ∧ (Fhaiku_selection_data refNative (.fixnum 7) text_plain_string emptyState).1
          = .signal (.wrong_type_argument Qsymbolp (.fixnum 7))
      ∧ (Fhaiku_selection_put refNative (.fixnum 7) text_plain_string hello_world_string Qnil
            emptyState).1
          = .signal (.wrong_type_argument Qsymbolp (.fixnum 7))
      ∧ ¬ ((Fhaiku_selection_data refNative (.fixnum 7) text_plain_string emptyState).1
          = .signal (.error "Bad clipboard" (.fixnum 7)))
      ∧ ¬ ((Fhaiku_selection_put refNative (.fixnum 7) text_plain_string hello_world_string Qnil
            emptyState).1
          = .signal (.error "Bad clipboard" (.fixnum 7))) := by
  refine ⟨rfl, rfl, rfl, ?_, ?_⟩
  · intro h
    have h2 : Outcome.signal (.wrong_type_argument Qsymbolp (.fixnum 7))
        = Outcome.signal (.error "Bad clipboard" (.fixnum 7)) := h
    cases h2
  · intro h
    have h2 : Outcome.signal (.wrong_type_argument Qsymbolp (.fixnum 7))
        = Outcome.signal (.error "Bad clipboard" (.fixnum 7)) := h
    cases h2

/-- C3 as amended (rejection of bad classes): for every class value that is
not one of `PRIMARY`, `SECONDARY`, `CLIPBOARD`, `haiku-selection-targets`
signals the "Bad clipboard" error carrying the value; `haiku-selection-data`
and `haiku-selection-put` signal it when the value is a symbol and their other
arguments have the types they check (the target a string, the data `nil` or a
string); when the value is not a symbol they signal `wrong-type-argument` with
`symbolp` and the value.  In every case the outcome is a signal, not a
result. -/
theorem C3_bad_class_rejected (N : NativeService Store) (clipboard : Lisp_Object)
    (s : State Store) (h : valid_clipboard clipboard = false) :
    (Fhaiku_selection_targets N clipboard s).1 = .signal (.error "Bad clipboard" clipboard)
      ∧ (∀ name, SYMBOLP clipboard = true → STRINGP name = true →
          (Fhaiku_selection_data N clipboard name s).1
            = .signal (.error "Bad clipboard" clipboard))
      ∧ (∀ name data clear, SYMBOLP clipboard = true → STRINGP name = true →
          (NILP data = true ∨ STRINGP data = true) →
          (Fhaiku_selection_put N clipboard name data clear s).1
            = .signal (.error "Bad clipboard" clipboard))
      ∧ (∀ name, SYMBOLP clipboard = false →
          (Fhaiku_selection_data N clipboard name s).1
            = .signal (.wrong_type_argument Qsymbolp clipboard))
      ∧ (∀ name data clear, SYMBOLP clipboard = false →
          (Fhaiku_selection_put N clipboard name data clear s).1
            = .signal (.wrong_type_argument Qsymbolp clipboard)) := by
  obtain ⟨h1, h2, h3⟩ := valid_clipboard_false h
  refine ⟨?_, ?_, ?_, ?_, ?_⟩
  · unfold Fhaiku_selection_targets
    rw [targets_run_bad N clipboard s h1 h2 h3]
  · intro name hs hn
    rw [data_run_bad N clipboard name s hs hn h1 h2 h3]
  · intro name data clear hs hn hd
    rw [put_run_bad N clipboard name data clear s hs hn hd h1 h2 h3]
  · intro name hs
    rw [data_run_not_symbol N clipboard name s hs]
  · intro name data clear hs
    rw [put_run_not_symbol N clipboard name data clear s hs]

/-- The symbol `XYZZY` is rejected with "Bad clipboard" by the three
primitives. -/
theorem C3_bad_class_rejected_witness :
    valid_clipboard (.symbol "XYZZY") = false
      ∧ (Fhaiku_selection_targets refNative (.symbol "XYZZY") emptyState).1
          = .signal (.error "Bad clipboard" (.symbol "XYZZY"))
      ∧ (Fhaiku_selection_data refNative (.symbol "XYZZY") text_plain_string emptyState).1
          = .signal (.error "Bad clipboard" (.symbol "XYZZY"))
      ∧ (Fhaiku_selection_put refNative (.symbol "XYZZY") text_plain_string
            hello_world_string Qt emptyState).1
          = .signal (.error "Bad clipboard" (.symbol "XYZZY")) :=
  ⟨rfl, (C3_bad_class_rejected refNative (.symbol "XYZZY") emptyState rfl).1,
    (C3_bad_class_rejected refNative (.symbol "XYZZY") emptyState rfl).2.1
      text_plain_string rfl rfl,
    (C3_bad_class_rejected refNative (.symbol "XYZZY") emptyState rfl).2.2.1
      text_plain_string hello_world_string Qt rfl rfl (Or.inr rfl)⟩

/-- C4 (empty is not an error): for every class, when the first slot the
native enumeration leaves in the buffer is null (no target),
`haiku-selection-targets` returns `nil`, the empty list; and for every target
string, when the native fetch returns a null buffer, `haiku-selection-data`
returns `nil`.  Neither signals an error. -/
theorem C4_empty_is_not_an_error (N : NativeService Store) (c : Clip) (s : State Store) :
    ((N.targets c (s.store c) 256).head? = some none →
        (Fhaiku_selection_targets N c.toLisp s).1 = .value Qnil)
      ∧ ∀ (name_data : List Byte) (name_multibyte : Bool)
          (name_intervals : List (Int × Int × Lisp_Object × Lisp_Object)) (len : Nat),
          N.find c (s.store c) name_data = (none, len) →
          (Fhaiku_selection_data N c.toLisp (.string name_data name_multibyte name_intervals) s).1
            = .value Qnil := by
  constructor
  · intro h
    unfold Fhaiku_selection_targets
    rw [targets_run_valid]
    cases hl : N.targets c (s.store c) 256 with
    | nil => simp [hl] at h
    | cons slot rest =>
      simp [hl] at h
      subst h
      rfl
  · intro name_data name_multibyte name_intervals len hf
    rw [data_run_absent N c (.string name_data name_multibyte name_intervals) s rfl len hf]

/-- On the empty clipboard of the reference service the enumeration leaves a
null first slot and the fetch a null buffer; both primitives return `nil`. -/
theorem C4_empty_is_not_an_error_witness :
    (refNative.targets .system (emptyState.store .system) 256).head? = some none
      ∧ (Fhaiku_selection_targets refNative QCLIPBOARD emptyState).1 = .value Qnil
      ∧ refNative.find .system (emptyState.store .system) text_plain = (none, 0)
      ∧ (Fhaiku_selection_data refNative QCLIPBOARD text_plain_string emptyState).1
          = .value Qnil :=
  ⟨rfl, (C4_empty_is_not_an_error refNative .system emptyState).1 rfl, rfl,
    (C4_empty_is_not_an_error refNative .system emptyState).2 text_plain false [] 0 rfl⟩

/-- C5 (provenance tag): for every class and target string for which the native
fetch returns a buffer, of any length `len` (zero included), the string
`haiku-selection-data` returns carries the `foreign-selection` property with
value `t` put on the range from 0 to `len`, and every position `i` with
`0 ≤ i < len` has that property with that value. -/
theorem C5_fetch_data_foreign_tag (N : NativeService Store) (c : Clip)
    (name_data : List Byte) (name_multibyte : Bool)
    (name_intervals : List (Int × Int × Lisp_Object × Lisp_Object)) (s : State Store)
    (buf : List Byte) (len : Nat)
    (hf : N.find c (s.store c) name_data = (some buf, len)) :
    ∃ payload,
      (Fhaiku_selection_data N c.toLisp (.string name_data name_multibyte name_intervals) s).1
          = .value payload
        ∧ string_intervals payload = [(0, (len : Int), Qforeign_selection, Qt)]
        ∧ ∀ i : Int, 0 ≤ i → i < len → Fget_text_property i Qforeign_selection payload = Qt := by
  refine ⟨.string (buf.take len) false [(0, (len : Int), Qforeign_selection, Qt)], ?_, rfl, ?_⟩
  · rw [data_run_present N c (.string name_data name_multibyte name_intervals) s rfl buf len hf]
    rfl
  · intro i h0 hi
    exact tagged_property_at _ len i h0 hi

/-- The eleven bytes of the example, fetched from the reference service, carry
the tag on the range from 0 to 11. -/
theorem C5_fetch_data_foreign_tag_witness :
    refFind ({ entries := [(text_plain, hello_world)], owned := true } : RefStore) text_plain
        = (some hello_world, 11)
      ∧ ∃ payload,
        (Fhaiku_selection_data refNative QPRIMARY text_plain_string
            { emptyState with
              primary := { entries := [(text_plain, hello_world)], owned := true } }).1
          = .value payload
        ∧ string_intervals payload = [(0, ((11 : Nat) : Int), Qforeign_selection, Qt)]
        ∧ ∀ i : Int, 0 ≤ i → i < (11 : Nat) →
            Fget_text_property i Qforeign_selection payload = Qt :=
  ⟨rfl, C5_fetch_data_foreign_tag refNative .primary text_plain false []
    { emptyState with primary := { entries := [(text_plain, hello_world)], owned := true } }
    hello_world 11 rfl⟩

/-- C6 (query-ownership): for every value of the argument,
`haiku-selection-owner-p` returns a value, never a signal, and that value is
`t` or `nil` as the reference definition says: the native `owns` of Primary for
`nil` or `PRIMARY`, of Secondary for `t` or `SECONDARY`, of Clipboard for
`CLIPBOARD`, and `nil` for every other value. -/
theorem C6_query_ownership_refines_reference (N : NativeService Store)
    (selection : Lisp_Object) (s : State Store) :
    (Fhaiku_selection_owner_p N selection s).1
      = .value (if query_ownership_reference N selection s then Qt else Qnil) := by
  cases selection with
  | symbol name =>
    by_cases h1 : name = "nil"
    · subst h1; rfl
    by_cases h2 : name = "PRIMARY"
    · subst h2; rfl
    by_cases h3 : name = "t"
    · subst h3; rfl
    by_cases h4 : name = "SECONDARY"
    · subst h4; rfl
    by_cases h5 : name = "CLIPBOARD"
    · subst h5; rfl
    have hr : query_ownership_reference N (.symbol name) s = false := by
      unfold query_ownership_reference
      split <;> simp_all
    rw [hr]
    simp [Fhaiku_selection_owner_p, NILP, Qnil, Qt, QPRIMARY, QSECONDARY, QCLIPBOARD, EQ_symbol,
      h1, h2, h3, h4, h5]
  | fixnum n => rfl
  | string d m i => rfl
  | cons a b => rfl

/-- C7 (delegation of store-data): for every class, target string and clear
argument, `haiku-selection-put` returns `nil` and makes exactly one native
call, a store call on the store of that class, inside one `block_input`; it
passes the bytes of the target name, the bytes of the data with their number,
and a flag that is true exactly when the clear argument is not `nil`; data
`nil` is passed as a null buffer with length 0; the store of the class becomes
what the native call makes of it.  This holds for every byte string. -/
theorem C7_store_data_delegates (N : NativeService Store) (c : Clip)
    (name_data : List Byte) (name_multibyte : Bool)
    (name_intervals : List (Int × Int × Lisp_Object × Lisp_Object))
    (clear : Lisp_Object) (s : State Store) :
    ∃ flag : Bool, (flag = true ↔ clear ≠ Qnil)
      ∧ (∀ (d : List Byte) (d_multibyte : Bool)
          (d_intervals : List (Int × Int × Lisp_Object × Lisp_Object)),
          (Fhaiku_selection_put N c.toLisp (.string name_data name_multibyte name_intervals)
              (.string d d_multibyte d_intervals) clear s).1 = .value Qnil
            ∧ (Fhaiku_selection_put N c.toLisp (.string name_data name_multibyte name_intervals)
              (.string d d_multibyte d_intervals) clear s).2.calls
                = s.calls ++ [(.set_data c name_data (some d) d.length flag,
                    s.interrupt_input_blocked + 1)]
            ∧ (Fhaiku_selection_put N c.toLisp (.string name_data name_multibyte name_intervals)
              (.string d d_multibyte d_intervals) clear s).2.store c
                = N.set c (s.store c) name_data (some d) d.length flag)
      ∧ ((Fhaiku_selection_put N c.toLisp (.string name_data name_multibyte name_intervals)
              Qnil clear s).1 = .value Qnil
            ∧ (Fhaiku_selection_put N c.toLisp (.string name_data name_multibyte name_intervals)
              Qnil clear s).2.calls
                = s.calls ++ [(.set_data c name_data none 0 flag, s.interrupt_input_blocked + 1)]
            ∧ (Fhaiku_selection_put N c.toLisp (.string name_data name_multibyte name_intervals)
              Qnil clear s).2.store c
                = N.set c (s.store c) name_data none 0 flag) := by
  refine ⟨!NILP clear, ?_, ?_, ?_⟩
  · rw [Ne, ← NILP_iff]
    cases NILP clear <;> simp
  · intro d d_multibyte d_intervals
    have hst := put_store_same N c (.string name_data name_multibyte name_intervals)
      (.string d d_multibyte d_intervals) clear s rfl (Or.inr rfl)
    have hput := put_run_valid N c (.string name_data name_multibyte name_intervals)
      (.string d d_multibyte d_intervals) clear s rfl (Or.inr rfl)
    have hnil : NILP (.string d d_multibyte d_intervals) = false := rfl
    simp only [hnil, Bool.not_false, if_true, SSDATA, SBYTES] at hst hput
    refine ⟨by rw [hput], ?_, hst⟩
    rw [hput]
    cases c <;> simp [unblock_input, native_call, block_input, State.with_store]
  · have hst := put_store_same N c (.string name_data name_multibyte name_intervals)
      Qnil clear s rfl (Or.inl rfl)
    have hput := put_run_valid N c (.string name_data name_multibyte name_intervals)
      Qnil clear s rfl (Or.inl rfl)
    have hnil : NILP Qnil = true := rfl
    simp only [hnil, Bool.not_true, Bool.false_eq_true, if_false, SSDATA] at hst hput
    refine ⟨by rw [hput], ?_, hst⟩
    rw [hput]
    cases c <;> simp [unblock_input, native_call, block_input, State.with_store]

/-- C8 (class isolation): on a state with one native store per class,
`haiku-selection-put` on class `c` leaves the stores of the other classes as
they were; when it leaves through a signal no store has changed;
`haiku-selection-targets`, `haiku-selection-data` and
`haiku-selection-owner-p` change no store, whatever their arguments.  So after
a put on class `c`, a fetch or an enumeration on another class `d` returns
what it returned before. -/
theorem C8_class_isolation (N : NativeService Store) (s : State Store) :
    (∀ (c d : Clip) (name data clear : Lisp_Object), d ≠ c →
        (Fhaiku_selection_put N c.toLisp name data clear s).2.store d = s.store d)
      ∧ (∀ (clipboard name data clear : Lisp_Object) (e : LispError),
          (Fhaiku_selection_put N clipboard name data clear s).1 = .signal e →
          SameStores s (Fhaiku_selection_put N clipboard name data clear s).2)
      ∧ (∀ clipboard, SameStores s (Fhaiku_selection_targets N clipboard s).2)
      ∧ (∀ clipboard name, SameStores s (Fhaiku_selection_data N clipboard name s).2)
      ∧ (∀ selection, SameStores s (Fhaiku_selection_owner_p N selection s).2)
      ∧ (∀ (c d : Clip) (name data clear target : Lisp_Object), d ≠ c →
          (Fhaiku_selection_data N d.toLisp target
              (Fhaiku_selection_put N c.toLisp name data clear s).2).1
            = (Fhaiku_selection_data N d.toLisp target s).1)
      ∧ (∀ (c d : Clip) (name data clear : Lisp_Object), d ≠ c →
          (Fhaiku_selection_targets N d.toLisp
              (Fhaiku_selection_put N c.toLisp name data clear s).2).1
            = (Fhaiku_selection_targets N d.toLisp s).1) := by
  refine ⟨?_, ?_, ?_, ?_, ?_, ?_, ?_⟩
  · intro c d name data clear h
    exact put_store_other N c d name data clear s h
  · intro clipboard name data clear e he
    rcases put_cases N clipboard name data clear s with ⟨e1, h1⟩ | ⟨e1, h1⟩ | ⟨c, x, st, _, h1⟩
    · rw [h1]; exact sameStores_refl s
    · rw [h1]; exact sameStores_bracket s
    · rw [h1] at he
      cases he
  · intro clipboard
    exact (targets_facts N clipboard s).1
  · intro clipboard name
    exact (data_facts N clipboard name s).1
  · intro selection
    rcases owner_p_state N selection s with h | ⟨c, h⟩
    · rw [h]; exact sameStores_bracket s
    · rw [h]; exact sameStores_bracket_call _ s
  · intro c d name data clear target h
    exact data_value_of_store N d target s _ (put_store_other N c d name data clear s h)
  · intro c d name data clear h
    exact targets_value_of_store N d s _ (put_store_other N c d name data clear s h)

/-- After the example of section 8 is stored in the clipboard of the reference
service, the primary store is as before and a fetch from the primary selection
returns what it returned before. -/
theorem C8_class_isolation_witness :
    Clip.primary ≠ Clip.system
      ∧ (Fhaiku_selection_put refNative QCLIPBOARD text_plain_string hello_world_string Qt
          emptyState).2.store .primary = emptyState.store .primary
      ∧ (Fhaiku_selection_data refNative QPRIMARY text_plain_string
            (Fhaiku_selection_put refNative QCLIPBOARD text_plain_string hello_world_string Qt
              emptyState).2).1
          = (Fhaiku_selection_data refNative QPRIMARY text_plain_string emptyState).1 :=
  ⟨by decide,
    (C8_class_isolation refNative emptyState).1 .system .primary text_plain_string
      hello_world_string Qt (by decide),
    (C8_class_isolation refNative emptyState).2.2.2.2.2.1 .system .primary text_plain_string
      hello_world_string Qt text_plain_string (by decide)⟩

/-- C9 (balanced input blocking): with `block_input` and `unblock_input` as a
depth counter, each of the four primitives, on every input, ends at the depth
it started at, whether it returns a value, returns `nil` for absent data or
signals an error (for `haiku-selection-targets`: whenever it ends in a value or
a signal), and every native call it makes (enumerate, fetch, free, store,
owns) is made at a depth strictly above the depth it started at. -/
theorem C9_balanced_input_blocking (N : NativeService Store) (s : State Store) :
    (∀ clipboard,
        ((Fhaiku_selection_targets N clipboard s).1 ≠ .undefined →
          SameDepth s (Fhaiku_selection_targets N clipboard s).2)
        ∧ CallsInsideBlock s (Fhaiku_selection_targets N clipboard s).2)
      ∧ (∀ clipboard name,
          SameDepth s (Fhaiku_selection_data N clipboard name s).2
          ∧ CallsInsideBlock s (Fhaiku_selection_data N clipboard name s).2)
      ∧ (∀ clipboard name data clear,
          SameDepth s (Fhaiku_selection_put N clipboard name data clear s).2
          ∧ CallsInsideBlock s (Fhaiku_selection_put N clipboard name data clear s).2)
      ∧ (∀ selection,
          SameDepth s (Fhaiku_selection_owner_p N selection s).2
          ∧ CallsInsideBlock s (Fhaiku_selection_owner_p N selection s).2) := by
  refine ⟨?_, ?_, ?_, ?_⟩
  · intro clipboard
    exact ⟨(targets_facts N clipboard s).2.2, (targets_facts N clipboard s).2.1⟩
  · intro clipboard name
    exact (data_facts N clipboard name s).2
  · intro clipboard name data clear
    rcases put_cases N clipboard name data clear s with ⟨e1, h1⟩ | ⟨e1, h1⟩ | ⟨c, x, st, _, h1⟩
    · rw [h1]; exact run_none s
    · rw [h1]; exact run_bracket s
    · rw [h1]; exact run_bracket_store x s c st
  · intro selection
    rcases owner_p_state N selection s with h | ⟨c, h⟩
    · rw [h]; exact run_bracket s
    · rw [h]; exact run_bracket_call _ s

/-- On the reference service the four primitives end at the depth they
started at, also on the "Bad clipboard" error. -/
theorem C9_balanced_input_blocking_witness :
    (Fhaiku_selection_targets refNative QPRIMARY twoTargetsState).1 ≠ .undefined
      ∧ SameDepth twoTargetsState (Fhaiku_selection_targets refNative QPRIMARY twoTargetsState).2
      ∧ SameDepth emptyState
          (Fhaiku_selection_data refNative (.symbol "XYZZY") text_plain_string emptyState).2
      ∧ CallsInsideBlock emptyState
          (Fhaiku_selection_put refNative QCLIPBOARD text_plain_string hello_world_string Qt
            emptyState).2 :=
  ⟨(fun h => by cases h),
    ((C9_balanced_input_blocking refNative twoTargetsState).1 QPRIMARY).1 (fun h => by cases h),
    ((C9_balanced_input_blocking refNative emptyState).2.1 (.symbol "XYZZY")
      text_plain_string).1,
    ((C9_balanced_input_blocking refNative emptyState).2.2.1 QCLIPBOARD text_plain_string
      hello_world_string Qt).2⟩

/-- C10, the claim as stated fails: when the native enumeration fills all 256
slots of the buffer with targets and leaves no null slot, the loop of
`haiku_selection_data_1` does not stop at slot 255; it goes on to read slot
256, outside the array, and no list is returned. -/
theorem C10_counterexample_full_buffer :
    (fullNative.targets .primary (emptyState.store .primary) 256).length = 256
      ∧ none ∉ fullNative.targets .primary (emptyState.store .primary) 256
      ∧ (Fhaiku_selection_targets fullNative QPRIMARY emptyState).1 = .undefined := by
  refine ⟨rfl, ?_, rfl⟩
  intro hmem
  have hall : ∀ slot ∈ fullNative.targets .primary (emptyState.store .primary) 256,
      slot = some [97, 0] := fun slot hslot => List.eq_of_mem_replicate hslot
  cases hall none hmem

/-- C10 as amended (enumeration order and cap): for every class and every
content of the 256-slot buffer that holds a null slot, `haiku-selection-targets`
returns a list, reads no slot past that null slot, and the list holds one
string per target that precedes the first null slot, the last of them first;
it never holds more than 255 strings. -/
theorem C10_enumeration_reversed_up_to_null (N : NativeService Store) (c : Clip)
    (s : State Store) (h : none ∈ (N.targets c (s.store c) 256).take 256) :
    (Fhaiku_selection_targets N c.toLisp s).1
        = .value (lisp_list
            ((targets_before_null ((N.targets c (s.store c) 256).take 256)).map
              build_unibyte_string).reverse)
      ∧ (targets_before_null ((N.targets c (s.store c) 256).take 256)).length ≤ 255 := by
  constructor
  · unfold Fhaiku_selection_targets
    rw [targets_run_valid, loop_onto _ Qnil h, lisp_list_eq_foldr]
  · have hlt := targets_before_null_length _ h
    have hle : ((N.targets c (s.store c) 256).take 256).length ≤ 256 := by
      simp
    omega

/-- With the targets "a" then "b" in the primary selection of the reference
service, the buffer has a null slot and the list returned is "b" then "a". -/
theorem C10_enumeration_reversed_up_to_null_witness :
    none ∈ (refNative.targets .primary (twoTargetsState.store .primary) 256).take 256
      ∧ (Fhaiku_selection_targets refNative QPRIMARY twoTargetsState).1
          = .value (lisp_list [.string [98] false [], .string [97] false []])
      ∧ (targets_before_null
          ((refNative.targets .primary (twoTargetsState.store .primary) 256).take 256)).length
          ≤ 255 :=
  ⟨List.getElem?_mem (n := 2) rfl,
    (C10_enumeration_reversed_up_to_null refNative .primary twoTargetsState
      (List.getElem?_mem (n := 2) rfl)).1,
    (C10_enumeration_reversed_up_to_null refNative .primary twoTargetsState
      (List.getElem?_mem (n := 2) rfl)).2⟩

end HaikuSelect
